import Mathlib

/-!
Verification development for the LocalSense seller shim (Go sources:
`neuron-seller/neuron_seller.go` and the main HTTP shim file).

The Go code is shallowly embedded: pure functions become Lean functions,
float64 values are modelled as rationals, `time.Time` values as epoch
seconds (`Int`), environment access as a function `String → String`
(Go's `os.Getenv` returns `""` for unset variables), and the network as
explicit oracle parameters.  Go's `encoding/json` marshalling of a
`map[string]any` is modelled by rendering the entries sorted by key
(which is what `json.Marshal` does), so the serialized output is
independent of the map's iteration order; Go's float formatting is
abstracted by a deterministic rational renderer.
-/

namespace LocalSense

/-- JSON values as handled by Go's `encoding/json`. -/
inductive Json where
  | null : Json
  | bool : Bool → Json
  | num : ℚ → Json
  | str : String → Json
  | arr : List Json → Json
  | obj : List (String × Json) → Json

/-- Entry list of a JSON object / Go `map[string]any`. -/
abbrev Entries := List (String × Json)

/-- Deterministic rendering of a JSON number (abstraction of Go's
float64 formatting: the exact digits are irrelevant to the claims, only
determinism is). -/
def renderNum (q : ℚ) : String :=
  if q.den = 1 then toString q.num else toString q.num ++ "/" ++ toString q.den

/-- Rendering of a JSON string (abstraction of Go's string escaping). -/
def renderString (s : String) : String := "\"" ++ s ++ "\""

mutual

/-- Render a JSON value to its serialized form. -/
def Json.render : Json → String
  | Json.null => "null"
  | Json.bool true => "true"
  | Json.bool false => "false"
  | Json.num q => renderNum q
  | Json.str s => renderString s
  | Json.arr xs => "[" ++ renderArr xs ++ "]"
  | Json.obj kvs => "\x7b" ++ renderObjEntries kvs ++ "\x7d"

/-- Render the elements of a JSON array, comma separated. -/
def renderArr : List Json → String
  | [] => ""
  | [x] => Json.render x
  | x :: y :: xs => Json.render x ++ "," ++ renderArr (y :: xs)

/-- Render object entries in the given order, comma separated. -/
def renderObjEntries : List (String × Json) → String
  | [] => ""
  | [(k, v)] => renderString k ++ ":" ++ Json.render v
  | (k, v) :: e :: kvs => renderString k ++ ":" ++ Json.render v ++ "," ++ renderObjEntries (e :: kvs)

end

/-- Key comparison used by Go's `json.Marshal` when serializing a map:
entries are emitted in increasing key order. -/
def keyLE (p q : String × Json) : Bool := decide (p.1 ≤ q.1)

theorem keyLE_trans : ∀ (a b c : String × Json),
    keyLE a b = true → keyLE b c = true → keyLE a c = true := by
  intro a b c hab hbc
  simp only [keyLE, decide_eq_true_eq] at hab hbc ⊢
  exact le_trans hab hbc

theorem keyLE_total : ∀ (a b : String × Json), (keyLE a b || keyLE b a) = true := by
  intro a b
  simp only [keyLE, Bool.or_eq_true, decide_eq_true_eq]
  exact le_total a.1 b.1

/-- Sort object entries by key, as `json.Marshal` does for Go maps. -/
def sortEntries (l : Entries) : Entries := l.mergeSort keyLE

/-- Serialization of a Go `map[string]any`: entries sorted by key. -/
def marshalObj (l : Entries) : String :=
  "\x7b" ++ renderObjEntries (sortEntries l) ++ "\x7d"

theorem sortEntries_perm (l : Entries) : (sortEntries l).Perm l :=
  List.mergeSort_perm l keyLE

theorem sortEntries_sorted (l : Entries) :
    List.Pairwise (fun a b => keyLE a b = true) (sortEntries l) :=
  List.sorted_mergeSort keyLE_trans keyLE_total l

/-- Two lists of object entries that are permutations of each other and
have pairwise-distinct keys sort identically; hence `json.Marshal` of a
Go map does not depend on the map's iteration order. -/
theorem sortEntries_eq_of_perm {l₁ l₂ : Entries} (h : l₁.Perm l₂)
    (hnd : List.Pairwise (fun a b : String × Json => a.1 ≠ b.1) l₁) :
    sortEntries l₁ = sortEntries l₂ := by
  haveI : IsAntisymm (String × Json) (fun a b => a.1 < b.1) :=
    ⟨fun a b h1 h2 => absurd (h1.trans h2) (lt_irrefl _)⟩
  have hperm : (sortEntries l₁).Perm (sortEntries l₂) :=
    ((sortEntries_perm l₁).trans h).trans (sortEntries_perm l₂).symm
  have hnd₁ : List.Pairwise (fun a b : String × Json => a.1 ≠ b.1) (sortEntries l₁) :=
    (List.Perm.pairwise_iff (fun hab => Ne.symm hab) (sortEntries_perm l₁)).mpr hnd
  have hnd' : List.Pairwise (fun a b : String × Json => a.1 ≠ b.1) l₂ :=
    (List.Perm.pairwise_iff (fun hab => Ne.symm hab) h).mp hnd
  have hnd₂ : List.Pairwise (fun a b : String × Json => a.1 ≠ b.1) (sortEntries l₂) :=
    (List.Perm.pairwise_iff (fun hab => Ne.symm hab) (sortEntries_perm l₂)).mpr hnd'
  have hs₁ : List.Pairwise (fun a b : String × Json => a.1 < b.1) (sortEntries l₁) :=
    ((sortEntries_sorted l₁).and hnd₁).imp
      (fun hab => lt_of_le_of_ne (by simpa [keyLE] using hab.1) hab.2)
  have hs₂ : List.Pairwise (fun a b : String × Json => a.1 < b.1) (sortEntries l₂) :=
    ((sortEntries_sorted l₂).and hnd₂).imp
      (fun hab => lt_of_le_of_ne (by simpa [keyLE] using hab.1) hab.2)
  exact List.eq_of_perm_of_sorted hperm hs₁ hs₂

theorem marshalObj_eq_of_perm {l₁ l₂ : Entries} (h : l₁.Perm l₂)
    (hnd : List.Pairwise (fun a b : String × Json => a.1 ≠ b.1) l₁) :
    marshalObj l₁ = marshalObj l₂ := by
  unfold marshalObj
  rw [sortEntries_eq_of_perm h hnd]

/-! ### Wall-clock time

`time.Time` values are modelled by their UTC epoch seconds (`Int`);
`Format(time.RFC3339)` on a UTC time prints whole seconds, so it is a
function of the epoch value.  The calendar conversion below is the
standard civil-from-days computation used to produce the
`YYYY-MM-DDTHH:MM:SSZ` string. -/

/-- Convert a count of days since 1970-01-01 to a `(year, month, day)`
civil date (proleptic Gregorian calendar). -/
def civilFromDays (z0 : Int) : Int × Int × Int :=
  let z := z0 + 719468
  let era := z.fdiv 146097
  let doe := z - era * 146097
  let yoe := (doe - doe.fdiv 1460 + doe.fdiv 36524 - doe.fdiv 146096).fdiv 365
  let y := yoe + era * 400
  let doy := doe - (365 * yoe + yoe.fdiv 4 - yoe.fdiv 100)
  let mp := (5 * doy + 2).fdiv 153
  let d := doy - (153 * mp + 2).fdiv 5 + 1
  let m := mp + (if mp < 10 then 3 else (-9))
  (y + (if m ≤ 2 then 1 else 0), m, d)

/-- Zero-pad a number to two digits. -/
def pad2 (n : Int) : String := if n < 10 then "0" ++ toString n else toString n

/-- Zero-pad a number to four digits. -/
def pad4 (n : Int) : String :=
  if n < 10 then "000" ++ toString n
  else if n < 100 then "00" ++ toString n
  else if n < 1000 then "0" ++ toString n
  else toString n

/-- RFC3339 UTC representation of an epoch-seconds value, as produced by
Go's `time.Unix(t, 0).UTC().Format(time.RFC3339)`. -/
def rfc3339FromEpoch (t : Int) : String :=
  let days := t.fdiv 86400
  let secs := t - days * 86400
  let ymd := civilFromDays days
  let hh := secs.fdiv 3600
  let mm := (secs - hh * 3600).fdiv 60
  let ss := secs - hh * 3600 - mm * 60
  pad4 ymd.1 ++ "-" ++ pad2 ymd.2.1 ++ "-" ++ pad2 ymd.2.2 ++ "T" ++
    pad2 hh ++ ":" ++ pad2 mm ++ ":" ++ pad2 ss ++ "Z"

/-! ### Data model -/

/-- `piMetrics` from `neuron_seller.go`: the decoded body of the Pi
sensor's `/metrics` endpoint.  Go float64 fields are modelled as ℚ. -/
structure PiMetrics where
  ts : ℚ
  brightness : ℚ
deriving DecidableEq, Repr

/-- `SellerConfig` from the HTTP shim file: the process-lifetime seller
identity (the `Port` field is irrelevant to the claims). -/
structure SellerConfig where
  sellerID : String
  piBase : String
  lat : ℚ
  lon : ℚ
  label : String
deriving DecidableEq, Repr

/-- `neuronSellerConfig` from `neuron_seller.go`.  `streamInterval` is a
`time.Duration` in nanoseconds. -/
structure NeuronSellerConfig where
  enabled : Bool
  protocol : String
  version : String
  streamInterval : Int
  sampleKind : String
deriving DecidableEq, Repr

/-- One nanosecond count per second (`time.Second`). -/
def second : Int := 1000000000

/-! ### Environment / configuration loading -/

/-- Process environment: `os.Getenv` returns `""` for unset variables. -/
abbrev Env := String → String

/-- Drop leading whitespace characters from a character list. -/
def dropLeadingWs : List Char → List Char
  | [] => []
  | c :: cs => if c.isWhitespace then dropLeadingWs cs else c :: cs

/-- Go's `strings.TrimSpace`: remove leading and trailing whitespace. -/
def trimSpace (s : String) : String :=
  ⟨(dropLeadingWs (dropLeadingWs s.data).reverse).reverse⟩

/-- Go's `strings.ToLower` (ASCII is all the callers use). -/
def lowerStr (s : String) : String := ⟨s.data.map Char.toLower⟩

/-- Accumulate decimal digits; any non-digit character is a parse error
(`strconv.Atoi` rejects the whole string). -/
def parseDigits : List Char → Nat → Option Nat
  | [], acc => some acc
  | c :: cs, acc =>
    if c.isDigit then parseDigits cs (acc * 10 + (c.toNat - 48)) else none

/-- Go's `strconv.Atoi`: an optional sign followed by one or more
decimal digits; anything else is an error. -/
def atoi (s : String) : Option Int :=
  match s.data with
  | [] => none
  | '-' :: rest =>
    if rest = [] then none else (parseDigits rest 0).map (fun n => -(n : Int))
  | '+' :: rest =>
    if rest = [] then none else (parseDigits rest 0).map (fun n => (n : Int))
  | l => (parseDigits l 0).map (fun n => (n : Int))

/-- `getEnvOrDefault` from `neuron_seller.go`. -/
def getEnvOrDefault (env : Env) (key fallback : String) : String :=
  let val := trimSpace (env key)
  if val = "" then fallback else val

/-- `parseEnvBool` from `neuron_seller.go`. -/
def parseEnvBool (env : Env) (key : String) (fallback : Bool) : Bool :=
  let val := trimSpace (lowerStr (env key))
  if val = "" then fallback
  else
    match val with
    | "1" | "true" | "yes" | "y" | "on" => true
    | "0" | "false" | "no" | "n" | "off" => false
    | _ => fallback

/-- `parseEnvInt` from `neuron_seller.go`. -/
def parseEnvInt (env : Env) (key : String) (fallback : Int) : Int :=
  let val := trimSpace (env key)
  if val = "" then fallback
  else
    match atoi val with
    | none => fallback
    | some parsed => parsed

/-- `ensureDefaults` from `neuron_seller.go`. -/
def NeuronSellerConfig.ensureDefaults (c : NeuronSellerConfig) : NeuronSellerConfig :=
  let c := if c.streamInterval ≤ 0 then { c with streamInterval := 5 * second } else c
  let c := if c.protocol = "" then { c with protocol := "/localsense/brightness/v1" } else c
  let c := if c.version = "" then { c with version := "0.1.0" } else c
  let c := if c.sampleKind = "" then { c with sampleKind := "brightness_sample" } else c
  c

/-- The raw config assembled from the environment inside
`loadNeuronSellerConfig`, before `ensureDefaults` is applied. -/
def rawNeuronSellerConfig (env : Env) : NeuronSellerConfig :=
  { enabled := parseEnvBool env "NEURON_ENABLE" false
    protocol := getEnvOrDefault env "NEURON_PROTOCOL_ID" "/localsense/brightness/v1"
    version := getEnvOrDefault env "NEURON_VERSION" "0.1.0"
    streamInterval := parseEnvInt env "NEURON_STREAM_INTERVAL_SECONDS" 5 * second
    sampleKind := getEnvOrDefault env "NEURON_SAMPLE_KIND" "brightness_sample" }

/-- `loadNeuronSellerConfig` from `neuron_seller.go` (it never returns an
error, so the `error` component is dropped). -/
def loadNeuronSellerConfig (env : Env) : NeuronSellerConfig :=
  (rawNeuronSellerConfig env).ensureDefaults

/-- The tick interval of the single-sink `/stream` loop: `streamHandler`
creates its ticker with the literal `5 * time.Second`, reading neither
the environment nor the Neuron seller config (the parameter records that
the surrounding process does have an environment). -/
def streamHandlerTickInterval (_env : Env) : Int := 5 * second

/-! ### Envelope builder (`buildSamplePayload`) -/

/-- Go's `int64(f)` conversion of a float64, truncation toward zero,
modelled on ℚ (numerator T-divided by denominator). -/
def goTrunc (q : ℚ) : Int := q.num.tdiv q.den

/-- The timestamp chosen by `buildSamplePayload`: the truncated reading
timestamp if positive, otherwise the caller-supplied wall clock. -/
def normalizeTs (ts : ℚ) (now : Int) : Int :=
  let tsEpoch := goTrunc ts
  if 0 < tsEpoch then tsEpoch else now

/-- The envelope map built by `buildSamplePayload` (insertion order of
the Go map literal). -/
def envelopeEntries (idcfg : SellerConfig) (kind : String) (now : Int)
    (m : PiMetrics) : Entries :=
  let tsEpoch := normalizeTs m.ts now
  [("ts", Json.num tsEpoch),
   ("ts_iso", Json.str (rfc3339FromEpoch tsEpoch)),
   ("brightness", Json.num m.brightness),
   ("seller_id", Json.str idcfg.sellerID),
   ("source", Json.str idcfg.sellerID),
   ("label", Json.str idcfg.label),
   ("lat", Json.num idcfg.lat),
   ("lon", Json.num idcfg.lon),
   ("kind", Json.str kind)]

/-- `buildSamplePayload` from `neuron_seller.go`: fails on a nil metrics
pointer, otherwise returns the serialized envelope and the normalized
epoch (`json.Marshal` of this map cannot fail). -/
def buildSamplePayload (idcfg : SellerConfig) (kind : String) (now : Int)
    (metrics : Option PiMetrics) : Except String (String × Int) :=
  match metrics with
  | none => Except.error "metrics payload is nil"
  | some m =>
    Except.ok (marshalObj (envelopeEntries idcfg kind now m), normalizeTs m.ts now)

/-! ### Sensor reader (`fetchJSON` / `fetchPiMetrics`)

The network is modelled by an `HttpResult` oracle: either the endpoint
was unreachable, or it answered with a status code and a body.  A body
that is not valid JSON at all is `none`; otherwise it is the parsed
`Json` value, and decoding into the `piMetrics` struct follows Go's
`encoding/json` rules: object entries are processed in document order;
an entry's key is matched against the struct's `json:"ts"` /
`json:"brightness"` tags case-insensitively (`strings.EqualFold`; a key
matching no field is ignored); each matching numeric entry assigns the
field (so with duplicate or case-variant keys the last one wins), a
`null` value is a no-op, and a matching entry whose value is neither a
number nor `null` is an unmarshal type error — decoding continues past
it and the earliest such error is reported.  Fields with no matching
entry keep their zero value, and a `null` body is a no-op that leaves
the whole zeroed struct. -/

/-- Outcome of `http.Get` as observed by `fetchJSON`. -/
inductive HttpResult where
  | unreachable (err : String)
  | response (status : Nat) (body : Option Json)

/-- Go's `strings.EqualFold` as used by `encoding/json` to match object
keys to struct field tags (ASCII folding, which covers every key the
tags can match). -/
def eqFold (s t : String) : Bool := lowerStr s == lowerStr t

/-- Whether a JSON value may be decoded into a float64 field: a number
assigns it, `null` is a no-op, anything else is an unmarshal type
error. -/
def numCompatible : Json → Bool
  | Json.num _ => true
  | Json.null => true
  | _ => false

/-- One pass of Go's `encoding/json` object decoding into the
`piMetrics` struct: fold over the entries in document order, carrying
the current `ts` value, `brightness` value, and the earliest unmarshal
error.  A key folding to `ts` or `brightness` updates that field (last
numeric value wins, `null` is a no-op, other values record a type error
and decoding continues); all other keys are ignored. -/
def decodePiFields : Entries → ℚ → ℚ → Option String → ℚ × ℚ × Option String
  | [], t, b, err => (t, b, err)
  | (k, v) :: rest, t, b, err =>
    if eqFold k "ts" then
      match v with
      | Json.num q => decodePiFields rest q b err
      | Json.null => decodePiFields rest t b err
      | _ => decodePiFields rest t b (err <|> some "cannot unmarshal field ts")
    else if eqFold k "brightness" then
      match v with
      | Json.num q => decodePiFields rest t q err
      | Json.null => decodePiFields rest t b err
      | _ => decodePiFields rest t b (err <|> some "cannot unmarshal field brightness")
    else decodePiFields rest t b err

/-- Decode a JSON body into the `piMetrics` struct, following Go's
`json.Decoder.Decode(&piMetrics{})` semantics. -/
def decodePiMetrics (j : Json) : Except String PiMetrics :=
  match j with
  | Json.null => Except.ok ⟨0, 0⟩
  | Json.obj kvs =>
    match decodePiFields kvs 0 0 none with
    | (t, b, none) => Except.ok ⟨t, b⟩
    | (_, _, some e) => Except.error e
  | _ => Except.error "cannot unmarshal body into piMetrics"

/-- `fetchJSON` from the shim file, specialized to the `piMetrics`
destination type: error on unreachable endpoint, error on any status
other than 200 (`http.StatusOK`), error on an undecodable body. -/
def fetchJSONPi (r : HttpResult) : Except String PiMetrics :=
  match r with
  | HttpResult.unreachable e => Except.error ("GET: " ++ e)
  | HttpResult.response status body =>
    if status ≠ 200 then Except.error ("status " ++ toString status)
    else
      match body with
      | none => Except.error "decode: invalid JSON"
      | some j => decodePiMetrics j

/-- `fetchPiMetrics` from `neuron_seller.go`: fails immediately when
`PI_BASE_URL` is unconfigured, otherwise fetches `<base>/metrics`. -/
def fetchPiMetrics (piBase : String) (r : HttpResult) : Except String PiMetrics :=
  if piBase = "" then Except.error "PI_BASE_URL is not configured"
  else fetchJSONPi r

/-- Spec-side predicate (for the amended C7): a struct field decodes iff
every object entry whose key case-insensitively matches it has a number
or `null` value (absent is fine — the field keeps its zero value). -/
def specFieldOk (fieldName : String) (kvs : Entries) : Bool :=
  kvs.all fun kv => !(eqFold kv.1 fieldName) || numCompatible kv.2

/-- Spec-side predicate (for the amended C7): a body decodes iff it is
`null` or an object in which every entry matching `ts` or `brightness`
(case-insensitively) is a number or `null`; entries matching neither
field are ignored, and missing fields are tolerated. -/
def specDecodeOk (j : Json) : Bool :=
  match j with
  | Json.null => true
  | Json.obj kvs => specFieldOk "ts" kvs && specFieldOk "brightness" kvs
  | _ => false

/-- Spec-side success predicate for the amended C7: the fetch succeeds
exactly when the endpoint answered status 200 with a parseable JSON body
that decodes per `specDecodeOk`. -/
def specFetchOk (r : HttpResult) : Bool :=
  match r with
  | HttpResult.unreachable _ => false
  | HttpResult.response status body =>
    status = 200 &&
      match body with
      | none => false
      | some j => specDecodeOk j

/-! ### Sink registry and fan-out (`broadcastSample`) -/

/-- Transport-level connection state of a peer (the SDK's
`LibP2PState`; only equality with `Connected` matters to the seller). -/
inductive LibP2PState where
  | Connected
  | Disconnected
  | Connecting
deriving DecidableEq, Repr

/-- One entry of the SDK's `NodeBuffers` map, restricted to the fields
the seller reads. -/
structure BufferInfo where
  libP2PState : LibP2PState
  isOtherSideValidAccount : Bool
  otherStdInTopic : String
deriving DecidableEq, Repr

/-- Peer identity. -/
abbrev PeerId := String

/-- The live buffer map returned by `buffers.GetBufferMap()`, as a list
of entries (Go map iteration order is arbitrary; every property proved
below is order-independent). -/
abbrev BufferMap := List (PeerId × BufferInfo)

/-- A sink is eligible iff its transport state is `Connected` and the
peer's account has been validated (the negation of the `continue` guard
in `broadcastSample`). -/
def eligibleSink (b : BufferInfo) : Bool :=
  b.libP2PState == LibP2PState.Connected && b.isOtherSideValidAccount

/-- Number of eligible entries in a buffer map. -/
def eligibleCount (m : BufferMap) : Nat :=
  (m.filter (fun pb => eligibleSink pb.2)).length

/-- What happened to one sink during a tick's fan-out. -/
inductive SinkOutcome where
  | skipped
  | written (bytes : String)
  | failed (topic : String) (notice : String)
deriving DecidableEq, Repr

/-- The error notice text built in `broadcastSample` on a failed write:
`fmt.Sprintf("localsense node %s unavailable: %v", sellerCfg.SellerID, err)`. -/
def errorNotice (sellerID err : String) : String :=
  "localsense node " ++ sellerID ++ " unavailable: " ++ err

/-- `broadcastSample` from `neuron_seller.go`.  `writeErr` is the oracle
for `commonlib.WriteAndFlushBuffer`: `none` means the write succeeded.
Ineligible sinks are skipped silently; a failed write is reported (and
an error notice sent to the peer's stdin topic) and iteration continues. -/
def broadcastSample (writeErr : PeerId → Option String) (sellerID : String)
    (payload : String) (m : BufferMap) : List (PeerId × SinkOutcome) :=
  let line := payload ++ "\n"
  m.map fun pb =>
    if eligibleSink pb.2 then
      match writeErr pb.1 with
      | none => (pb.1, SinkOutcome.written line)
      | some e => (pb.1, SinkOutcome.failed pb.2.otherStdInTopic (errorNotice sellerID e))
    else (pb.1, SinkOutcome.skipped)

/-! ### Broadcast loops -/

/-- Observable behaviour of one tick of `handleSellerStream`'s loop:
whether `fetchPiMetrics` was called, and the per-sink fan-out outcomes. -/
structure TickTrace where
  sensorInvoked : Bool
  outcomes : List (PeerId × SinkOutcome)
deriving DecidableEq, Repr

/-- One `ticker.C` tick of `handleSellerStream`: skip if the buffer map
is empty; fetch (result supplied by the `fetchResult` oracle, carrying
the `*piMetrics` pointer as an `Option`); build; broadcast.  Fetch and
build failures are logged and skip the tick. -/
def sellerTick (cfg : NeuronSellerConfig) (idcfg : SellerConfig)
    (writeErr : PeerId → Option String) (m : BufferMap)
    (fetchResult : Except String (Option PiMetrics)) (now : Int) : TickTrace :=
  if m.length = 0 then ⟨false, []⟩
  else
    ⟨true,
      match fetchResult with
      | Except.error _ => []
      | Except.ok metrics =>
        match buildSamplePayload idcfg cfg.sampleKind now metrics with
        | Except.error _ => []
        | Except.ok (payload, _) => broadcastSample writeErr idcfg.sellerID payload m⟩

/-- The branch a Go `select` statement commits to. -/
inductive SelectBranch where
  | cancel
  | tick
deriving DecidableEq, Repr

/-- Semantics of the two-case `select` used by both loops: if exactly
one channel is ready that case runs; if both are ready Go chooses one
uniformly at random, modelled by the `choice` oracle; if neither is
ready the statement blocks (`none`). -/
def goSelect (cancelReady tickReady : Bool) (choice : SelectBranch) :
    Option SelectBranch :=
  match cancelReady, tickReady with
  | true, false => some SelectBranch.cancel
  | false, true => some SelectBranch.tick
  | true, true => some choice
  | false, false => none

/-- Result of one wake-up of the multi-sink loop: the loop either
returns (`stopped`) or performs a tick and re-arms. -/
inductive SellerStepResult where
  | stopped
  | ticked (trace : TickTrace)
deriving DecidableEq, Repr

/-- One wake-up of `handleSellerStream`: the `select` between
`ctx.Done()` and `ticker.C`.  The cancel case returns; the tick case
runs `sellerTick` and loops. -/
def handleSellerStreamStep (cfg : NeuronSellerConfig) (idcfg : SellerConfig)
    (writeErr : PeerId → Option String) (m : BufferMap)
    (fetchResult : Except String (Option PiMetrics)) (now : Int)
    (cancelReady tickReady : Bool) (choice : SelectBranch) :
    Option SellerStepResult :=
  match goSelect cancelReady tickReady choice with
  | none => none
  | some SelectBranch.cancel => some SellerStepResult.stopped
  | some SelectBranch.tick =>
    some (SellerStepResult.ticked (sellerTick cfg idcfg writeErr m fetchResult now))

/-- The NDJSON payload map built by `streamHandler` for one tick: the
raw `ts` and `brightness` values are copied from the decoded metrics map
unchanged (a missing key is Go `nil`, marshalled as JSON `null`); only
the separate `time_iso` field uses the tick's wall-clock time. -/
def streamPayloadEntries (idcfg : SellerConfig) (piMetricsMap : Entries)
    (t : Int) : Entries :=
  [("ts", ((piMetricsMap.lookup "ts").getD Json.null)),
   ("brightness", ((piMetricsMap.lookup "brightness").getD Json.null)),
   ("seller_id", Json.str idcfg.sellerID),
   ("lat", Json.num idcfg.lat),
   ("lon", Json.num idcfg.lon),
   ("label", Json.str idcfg.label),
   ("time_iso", Json.str (rfc3339FromEpoch t))]

/-- Result of one wake-up of the single-sink `/stream` loop. -/
inductive StreamStepResult where
  | stopped
  | ticked (emitted : Option String)
deriving DecidableEq, Repr

/-- One wake-up of `streamHandler`'s loop: `select` between
`r.Context().Done()` and `ticker.C`.  On a tick, a fetch failure is
logged and skips the tick; an encoder failure (oracle `encodeFails`)
terminates this stream's loop (`return`); otherwise the payload is
encoded (with a trailing newline, as `json.Encoder.Encode` does) and
flushed. -/
def streamHandlerStep (idcfg : SellerConfig)
    (fetchResult : Except String Entries) (encodeFails : Bool) (t : Int)
    (cancelReady tickReady : Bool) (choice : SelectBranch) :
    Option StreamStepResult :=
  match goSelect cancelReady tickReady choice with
  | none => none
  | some SelectBranch.cancel => some StreamStepResult.stopped
  | some SelectBranch.tick =>
    match fetchResult with
    | Except.error _ => some (StreamStepResult.ticked none)
    | Except.ok pm =>
      if encodeFails then some StreamStepResult.stopped
      else
        some (StreamStepResult.ticked
          (some (marshalObj (streamPayloadEntries idcfg pm t) ++ "\n")))

/-! ### Bridging lemmas: Go truncation vs. mathematical floor -/

theorem goTrunc_eq_floor_of_nonneg (q : ℚ) (h : 0 ≤ q) : goTrunc q = ⌊q⌋ := by
  have hnum : 0 ≤ q.num := Rat.num_nonneg.mpr h
  have hden : (0 : Int) ≤ (q.den : Int) := Int.ofNat_nonneg q.den
  rw [goTrunc, Int.tdiv_eq_ediv hnum hden, Rat.floor_def]

theorem goTrunc_eq_floor_of_floor_pos (q : ℚ) (h : 0 < ⌊q⌋) : goTrunc q = ⌊q⌋ := by
  have h1 : (1 : ℚ) ≤ q := by exact_mod_cast Int.le_floor.mp h
  exact goTrunc_eq_floor_of_nonneg q (le_trans zero_le_one h1)

theorem goTrunc_nonpos_of_floor_nonpos (q : ℚ) (h : ⌊q⌋ ≤ 0) : goTrunc q ≤ 0 := by
  rcases le_or_lt 0 q with hq | hq
  · rw [goTrunc_eq_floor_of_nonneg q hq]; exact h
  · have hnum : q.num < 0 := Rat.num_neg.mpr hq
    have hden : (0 : Int) ≤ (q.den : Int) := Int.ofNat_nonneg q.den
    have h1 : 0 ≤ -q.num := by omega
    have h2 : 0 ≤ (-q.num).tdiv q.den := Int.tdiv_nonneg h1 hden
    rw [Int.neg_tdiv] at h2
    unfold goTrunc
    omega

theorem normalizeTs_of_floor_pos (ts : ℚ) (now : Int) (h : 0 < ⌊ts⌋) :
    normalizeTs ts now = ⌊ts⌋ := by
  have ht := goTrunc_eq_floor_of_floor_pos ts h
  unfold normalizeTs
  rw [ht, if_pos h]

theorem normalizeTs_of_floor_nonpos (ts : ℚ) (now : Int) (h : ⌊ts⌋ ≤ 0) :
    normalizeTs ts now = now := by
  have ht := goTrunc_nonpos_of_floor_nonpos ts h
  unfold normalizeTs
  rw [if_neg (by omega)]

theorem normalizeTs_pos (ts : ℚ) (now : Int) (h : 0 < now) :
    0 < normalizeTs ts now := by
  have hdef : normalizeTs ts now = if 0 < goTrunc ts then goTrunc ts else now := rfl
  rw [hdef]
  split
  · assumption
  · exact h

/-- Lookup of the `ts` entry of the envelope map. -/
theorem envelopeEntries_lookup_ts (idcfg : SellerConfig) (kind : String)
    (now : Int) (m : PiMetrics) :
    (envelopeEntries idcfg kind now m).lookup "ts" =
      some (Json.num ((normalizeTs m.ts now : Int) : ℚ)) := rfl

/-- Lookup of the `ts_iso` entry of the envelope map. -/
theorem envelopeEntries_lookup_ts_iso (idcfg : SellerConfig) (kind : String)
    (now : Int) (m : PiMetrics) :
    (envelopeEntries idcfg kind now m).lookup "ts_iso" =
      some (Json.str (rfc3339FromEpoch (normalizeTs m.ts now))) := rfl

/-- The keys of the envelope map are pairwise distinct. -/
theorem envelopeEntries_keys_pairwise_ne (idcfg : SellerConfig) (kind : String)
    (now : Int) (m : PiMetrics) :
    List.Pairwise (fun a b : String × Json => a.1 ≠ b.1)
      (envelopeEntries idcfg kind now m) := by
  have h : List.Pairwise Ne
      ((envelopeEntries idcfg kind now m).map Prod.fst) := by
    show List.Pairwise Ne
      ["ts", "ts_iso", "brightness", "seller_id", "source", "label", "lat", "lon", "kind"]
    decide
  exact List.pairwise_map.mp h

/-! ### Claims -/

/-- C1: for every non-nil reading and every wall-clock `now`, letting
`t = ⌊reading.timestamp⌋`: if `t > 0` the envelope's `ts` field equals
`t`, its `ts_iso` field is the RFC3339 UTC representation of epoch `t`,
and the builder returns epoch `t`; otherwise both fields and the
returned epoch are derived from `now`, never from the invalid input. -/
theorem claim1_ts_rule (idcfg : SellerConfig) (kind : String)
    (now : Int) (m : PiMetrics) :
    (0 < ⌊m.ts⌋ →
      (envelopeEntries idcfg kind now m).lookup "ts" =
        some (Json.num ((⌊m.ts⌋ : Int) : ℚ)) ∧
      (envelopeEntries idcfg kind now m).lookup "ts_iso" =
        some (Json.str (rfc3339FromEpoch ⌊m.ts⌋)) ∧
      buildSamplePayload idcfg kind now (some m) =
        Except.ok (marshalObj (envelopeEntries idcfg kind now m), ⌊m.ts⌋)) ∧
    (⌊m.ts⌋ ≤ 0 →
      (envelopeEntries idcfg kind now m).lookup "ts" =
        some (Json.num ((now : Int) : ℚ)) ∧
      (envelopeEntries idcfg kind now m).lookup "ts_iso" =
        some (Json.str (rfc3339FromEpoch now)) ∧
      buildSamplePayload idcfg kind now (some m) =
        Except.ok (marshalObj (envelopeEntries idcfg kind now m), now)) := by
  constructor
  · intro h
    have hn := normalizeTs_of_floor_pos m.ts now h
    refine ⟨?_, ?_, ?_⟩
    · rw [envelopeEntries_lookup_ts, hn]
    · rw [envelopeEntries_lookup_ts_iso, hn]
    · show Except.ok (marshalObj (envelopeEntries idcfg kind now m), normalizeTs m.ts now) = _
      rw [hn]
  · intro h
    have hn := normalizeTs_of_floor_nonpos m.ts now h
    refine ⟨?_, ?_, ?_⟩
    · rw [envelopeEntries_lookup_ts, hn]
    · rw [envelopeEntries_lookup_ts_iso, hn]
    · show Except.ok (marshalObj (envelopeEntries idcfg kind now m), normalizeTs m.ts now) = _
      rw [hn]

/-- C1 witness: the spec's own example reading, `ts = 1700000000`,
yields `ts_iso = "2023-11-14T22:13:20Z"` regardless of `now`. -/
theorem claim1_ts_rule_witness :
    (envelopeEntries ⟨"pi-1", "http://pi", 51, 0, "porch"⟩ "brightness_sample" 99
        ⟨1700000000, 42⟩).lookup "ts_iso" =
      some (Json.str "2023-11-14T22:13:20Z") := by
  have h := (claim1_ts_rule ⟨"pi-1", "http://pi", 51, 0, "porch"⟩ "brightness_sample" 99
    ⟨1700000000, 42⟩).1 (by simp)
  rw [h.2.1]
  have hf : ⌊(1700000000 : ℚ)⌋ = (1700000000 : Int) := by simp
  rw [hf]
  rfl

/-- C9: the envelope builder is deterministic: whatever iteration orders
`l₁`, `l₂` the Go runtime presents the envelope map in, the serialized
bytes are identical, and each call returns exactly the canonical
serialized envelope with the normalized epoch. -/
theorem claim9_builder_deterministic (idcfg : SellerConfig) (kind : String)
    (now : Int) (m : PiMetrics) (l₁ l₂ : Entries)
    (h₁ : l₁.Perm (envelopeEntries idcfg kind now m))
    (h₂ : l₂.Perm (envelopeEntries idcfg kind now m)) :
    marshalObj l₁ = marshalObj l₂ ∧
    buildSamplePayload idcfg kind now (some m) =
      Except.ok (marshalObj l₁, normalizeTs m.ts now) := by
  have hnd := envelopeEntries_keys_pairwise_ne idcfg kind now m
  have hnd₁ : List.Pairwise (fun a b : String × Json => a.1 ≠ b.1) l₁ :=
    (List.Perm.pairwise_iff (fun hab => Ne.symm hab) h₁).mpr hnd
  have hnd₂ : List.Pairwise (fun a b : String × Json => a.1 ≠ b.1) l₂ :=
    (List.Perm.pairwise_iff (fun hab => Ne.symm hab) h₂).mpr hnd
  have e₁ : marshalObj l₁ = marshalObj (envelopeEntries idcfg kind now m) :=
    marshalObj_eq_of_perm h₁ hnd₁
  have e₂ : marshalObj l₂ = marshalObj (envelopeEntries idcfg kind now m) :=
    marshalObj_eq_of_perm h₂ hnd₂
  refine ⟨e₁.trans e₂.symm, ?_⟩
  show Except.ok (marshalObj (envelopeEntries idcfg kind now m), normalizeTs m.ts now) = _
  rw [e₁]

/-- Swap the first two elements of a list (one concrete alternative
iteration order of a Go map). -/
def swapFirstTwo : List α → List α
  | a :: b :: t => b :: a :: t
  | l => l

/-- C9 witness: at a concrete envelope, the iteration order that swaps
the first two map entries serializes to the same bytes as the canonical
order. -/
theorem claim9_builder_deterministic_witness :
    marshalObj (swapFirstTwo (envelopeEntries ⟨"pi-1", "http://pi", 51, 0, "porch"⟩
        "brightness_sample" 7 ⟨1700000000, 42⟩)) =
      marshalObj (envelopeEntries ⟨"pi-1", "http://pi", 51, 0, "porch"⟩
        "brightness_sample" 7 ⟨1700000000, 42⟩) :=
  (claim9_builder_deterministic ⟨"pi-1", "http://pi", 51, 0, "porch"⟩
    "brightness_sample" 7 ⟨1700000000, 42⟩ _ _
    (List.Perm.swap _ _ _) (List.Perm.refl _)).1

/-- The per-sink delivery function that `broadcastSample` maps over the
buffer map (the loop body of its `for` statement). -/
def sinkDeliver (writeErr : PeerId → Option String) (sellerID line : String)
    (pb : PeerId × BufferInfo) : PeerId × SinkOutcome :=
  if eligibleSink pb.2 then
    match writeErr pb.1 with
    | none => (pb.1, SinkOutcome.written line)
    | some e => (pb.1, SinkOutcome.failed pb.2.otherStdInTopic (errorNotice sellerID e))
  else (pb.1, SinkOutcome.skipped)

theorem broadcastSample_eq_map (writeErr : PeerId → Option String)
    (sellerID payload : String) (m : BufferMap) :
    broadcastSample writeErr sellerID payload m =
      m.map (sinkDeliver writeErr sellerID (payload ++ "\n")) := rfl

/-- C2: in the multi-sink broadcast exactly the Connected-and-validated
sinks are attempted and all others are skipped silently; every eligible
sink is attempted independently of the other sinks' failures; a sink is
reported failed (with the error notice on its stdin topic) exactly when
it is eligible and its write failed; and all successfully written sinks
receive the identical bytes, the serialized envelope plus a newline. -/
theorem claim2_fanout_isolation (writeErr : PeerId → Option String)
    (sellerID payload : String) (m : BufferMap) :
    (∀ p b, (p, b) ∈ m → eligibleSink b = true →
      (writeErr p = none →
        (p, SinkOutcome.written (payload ++ "\n")) ∈
          broadcastSample writeErr sellerID payload m) ∧
      (∀ e, writeErr p = some e →
        (p, SinkOutcome.failed b.otherStdInTopic (errorNotice sellerID e)) ∈
          broadcastSample writeErr sellerID payload m)) ∧
    (∀ p b, (p, b) ∈ m → eligibleSink b = false →
      (p, SinkOutcome.skipped) ∈ broadcastSample writeErr sellerID payload m) ∧
    (∀ p o, (p, o) ∈ broadcastSample writeErr sellerID payload m →
      ∀ t n, o = SinkOutcome.failed t n →
        ∃ b e, (p, b) ∈ m ∧ eligibleSink b = true ∧ writeErr p = some e ∧
          t = b.otherStdInTopic ∧ n = errorNotice sellerID e) ∧
    (∀ p o s, (p, o) ∈ broadcastSample writeErr sellerID payload m →
      o = SinkOutcome.written s → s = payload ++ "\n") := by
  rw [broadcastSample_eq_map]
  refine ⟨?_, ?_, ?_, ?_⟩
  · intro p b hmem helig
    constructor
    · intro hw
      have : sinkDeliver writeErr sellerID (payload ++ "\n") (p, b) =
          (p, SinkOutcome.written (payload ++ "\n")) := by
        simp [sinkDeliver, helig, hw]
      exact this ▸ List.mem_map_of_mem _ hmem
    · intro e hw
      have : sinkDeliver writeErr sellerID (payload ++ "\n") (p, b) =
          (p, SinkOutcome.failed b.otherStdInTopic (errorNotice sellerID e)) := by
        simp [sinkDeliver, helig, hw]
      exact this ▸ List.mem_map_of_mem _ hmem
  · intro p b hmem helig
    have : sinkDeliver writeErr sellerID (payload ++ "\n") (p, b) =
        (p, SinkOutcome.skipped) := by
      simp [sinkDeliver, helig]
    exact this ▸ List.mem_map_of_mem _ hmem
  · intro p o hmem t n ho
    subst ho
    rcases List.mem_map.mp hmem with ⟨⟨p', b⟩, hb, hd⟩
    by_cases helig : eligibleSink b = true
    · rcases hw : writeErr p' with _ | e
      · simp [sinkDeliver, helig, hw] at hd
      · simp only [sinkDeliver, helig, if_true, hw] at hd
        rcases Prod.mk.injEq .. ▸ hd with ⟨hp, hout⟩
        cases hout
        exact ⟨b, e, hp ▸ hb, helig, hp ▸ hw, rfl, rfl⟩
    · simp [sinkDeliver, helig] at hd
  · intro p o s hmem ho
    subst ho
    rcases List.mem_map.mp hmem with ⟨⟨p', b⟩, hb, hd⟩
    by_cases helig : eligibleSink b = true
    · rcases hw : writeErr p' with _ | e
      · simp only [sinkDeliver, helig, if_true, hw] at hd
        rcases Prod.mk.injEq .. ▸ hd with ⟨hp, hout⟩
        cases hout
        rfl
      · simp [sinkDeliver, helig, hw] at hd
    · simp [sinkDeliver, helig] at hd

/-- C2 witness: with three eligible sinks of which only `B` fails, `C`
still receives the serialized envelope line. -/
theorem claim2_fanout_isolation_witness :
    ("C", SinkOutcome.written "PAY\n") ∈
      broadcastSample (fun p => if p = "B" then some "boom" else none) "pi-1" "PAY"
        [("A", ⟨LibP2PState.Connected, true, "tA"⟩),
         ("B", ⟨LibP2PState.Connected, true, "tB"⟩),
         ("C", ⟨LibP2PState.Connected, true, "tC"⟩)] :=
  ((claim2_fanout_isolation (fun p => if p = "B" then some "boom" else none) "pi-1" "PAY"
      [("A", ⟨LibP2PState.Connected, true, "tA"⟩),
       ("B", ⟨LibP2PState.Connected, true, "tB"⟩),
       ("C", ⟨LibP2PState.Connected, true, "tC"⟩)]).1
    "C" ⟨LibP2PState.Connected, true, "tC"⟩ (by simp) (by decide)).1 (by decide)

/-- C3 counterexample: a registry whose single entry is Disconnected has
zero eligible sinks, yet `handleSellerStream` only tests
`len(GetBufferMap()) == 0`, so the Sensor Reader is still invoked on
that tick (no write occurs, but the claim also asserts no read). -/
theorem claim3_counterexample :
    eligibleCount [("peerA", ⟨LibP2PState.Disconnected, true, "topicA"⟩)] = 0 ∧
    (sellerTick ⟨true, "/localsense/brightness/v1", "0.1.0", 5 * second, "brightness_sample"⟩
        ⟨"pi-1", "http://pi", 51, 0, "porch"⟩ (fun _ => none)
        [("peerA", ⟨LibP2PState.Disconnected, true, "topicA"⟩)]
        (Except.ok (some ⟨1700000000, 42⟩)) 1700000001).sensorInvoked = true :=
  ⟨rfl, rfl⟩

/-- C3 (amended): the tick is skipped entirely — no read, no write —
exactly when the buffer map is empty; when the map is non-empty but has
zero eligible sinks, the Sensor Reader is still invoked and no sink is
written or notified (every fan-out outcome is a silent skip). -/
theorem claim3_skip_conditions (cfg : NeuronSellerConfig) (idcfg : SellerConfig)
    (writeErr : PeerId → Option String)
    (fetchResult : Except String (Option PiMetrics)) (now : Int) :
    (∀ m : BufferMap, m = [] →
      sellerTick cfg idcfg writeErr m fetchResult now = ⟨false, []⟩) ∧
    (∀ m : BufferMap, m ≠ [] →
      (sellerTick cfg idcfg writeErr m fetchResult now).sensorInvoked = true) ∧
    (∀ m : BufferMap, eligibleCount m = 0 →
      ∀ p o, (p, o) ∈ (sellerTick cfg idcfg writeErr m fetchResult now).outcomes →
        o = SinkOutcome.skipped) := by
  refine ⟨?_, ?_, ?_⟩
  · intro m hm
    subst hm
    rfl
  · intro m hm
    have hlen : ¬ m.length = 0 := fun h => hm (List.length_eq_zero.mp h)
    unfold sellerTick
    rw [if_neg hlen]
  · intro m helig p o hmem
    have hnone : ∀ pb ∈ m, eligibleSink pb.2 = false := by
      intro pb hpb
      have := List.filter_eq_nil_iff.mp
        (List.length_eq_zero.mp helig) pb hpb
      simpa using this
    unfold sellerTick at hmem
    by_cases hlen : m.length = 0
    · rw [if_pos hlen] at hmem
      simp at hmem
    · rw [if_neg hlen] at hmem
      rcases fetchResult with e | metrics
      · simp at hmem
      · rcases hbuild : buildSamplePayload idcfg cfg.sampleKind now metrics with e | pr
        · simp [hbuild] at hmem
        · simp only [hbuild] at hmem
          rw [broadcastSample_eq_map] at hmem
          rcases List.mem_map.mp hmem with ⟨⟨p', b⟩, hb, hd⟩
          have : eligibleSink b = false := hnone (p', b) hb
          simp only [sinkDeliver, this] at hd
          rcases Prod.mk.injEq .. ▸ hd with ⟨_, hout⟩
          exact hout.symm

/-- C3 witness: an empty registry skips the tick entirely. -/
theorem claim3_skip_conditions_witness :
    sellerTick ⟨true, "/localsense/brightness/v1", "0.1.0", 5 * second, "brightness_sample"⟩
        ⟨"pi-1", "http://pi", 51, 0, "porch"⟩ (fun _ => none) []
        (Except.ok (some ⟨1700000000, 42⟩)) 1700000001 = ⟨false, []⟩ :=
  (claim3_skip_conditions ⟨true, "/localsense/brightness/v1", "0.1.0", 5 * second,
      "brightness_sample"⟩ ⟨"pi-1", "http://pi", 51, 0, "porch"⟩ (fun _ => none)
      (Except.ok (some ⟨1700000000, 42⟩)) 1700000001).1 [] rfl

/-- C4 counterexample: with the cancellation signal and the tick signal
both ready, Go's `select` may choose the tick case; the loop then
performs the full fetch/build/fan-out for that wake-up — including a
sink write — instead of exiting. -/
theorem claim4_counterexample :
    handleSellerStreamStep
        ⟨true, "/localsense/brightness/v1", "0.1.0", 5 * second, "brightness_sample"⟩
        ⟨"pi-1", "http://pi", 51, 0, "porch"⟩ (fun _ => none)
        [("peerA", ⟨LibP2PState.Connected, true, "topicA"⟩)]
        (Except.ok (some ⟨1700000000, 42⟩)) 1700000001 true true SelectBranch.tick =
      some (SellerStepResult.ticked
        (sellerTick ⟨true, "/localsense/brightness/v1", "0.1.0", 5 * second, "brightness_sample"⟩
          ⟨"pi-1", "http://pi", 51, 0, "porch"⟩ (fun _ => none)
          [("peerA", ⟨LibP2PState.Connected, true, "topicA"⟩)]
          (Except.ok (some ⟨1700000000, 42⟩)) 1700000001)) ∧
    (sellerTick ⟨true, "/localsense/brightness/v1", "0.1.0", 5 * second, "brightness_sample"⟩
        ⟨"pi-1", "http://pi", 51, 0, "porch"⟩ (fun _ => none)
        [("peerA", ⟨LibP2PState.Connected, true, "topicA"⟩)]
        (Except.ok (some ⟨1700000000, 42⟩)) 1700000001).sensorInvoked = true ∧
    (∃ s, (sellerTick ⟨true, "/localsense/brightness/v1", "0.1.0", 5 * second, "brightness_sample"⟩
        ⟨"pi-1", "http://pi", 51, 0, "porch"⟩ (fun _ => none)
        [("peerA", ⟨LibP2PState.Connected, true, "topicA"⟩)]
        (Except.ok (some ⟨1700000000, 42⟩)) 1700000001).outcomes =
      [("peerA", SinkOutcome.written s)]) :=
  ⟨rfl, rfl, ⟨_, rfl⟩⟩

/-- C4 (amended): when the cancellation signal is ready and the tick
signal is not, both loops exit immediately without performing any tick
work; when both signals are ready Go's `select` picks either branch, and
whenever the cancel branch is the one selected the loop exits without
performing the tick.  (The original claim that cancellation is
preferred over a simultaneously-ready tick does not hold: `select`
chooses uniformly at random.) -/
theorem claim4_cancel_exits (cfg : NeuronSellerConfig) (idcfg : SellerConfig)
    (writeErr : PeerId → Option String) (m : BufferMap)
    (fetchResult : Except String (Option PiMetrics))
    (fetchResult' : Except String Entries) (encodeFails : Bool) (now t : Int)
    (tickReady : Bool) (choice : SelectBranch) :
    (tickReady = false →
      handleSellerStreamStep cfg idcfg writeErr m fetchResult now true tickReady choice =
        some SellerStepResult.stopped ∧
      streamHandlerStep idcfg fetchResult' encodeFails t true tickReady choice =
        some StreamStepResult.stopped) ∧
    (choice = SelectBranch.cancel →
      handleSellerStreamStep cfg idcfg writeErr m fetchResult now true tickReady choice =
        some SellerStepResult.stopped ∧
      streamHandlerStep idcfg fetchResult' encodeFails t true tickReady choice =
        some StreamStepResult.stopped) := by
  constructor
  · intro ht
    subst ht
    exact ⟨rfl, rfl⟩
  · intro hc
    subst hc
    cases tickReady
    · exact ⟨rfl, rfl⟩
    · exact ⟨rfl, rfl⟩

/-- C4 witness: a concrete wake-up with only the cancellation signal
ready exits the multi-sink loop without tick work. -/
theorem claim4_cancel_exits_witness :
    handleSellerStreamStep
        ⟨true, "/localsense/brightness/v1", "0.1.0", 5 * second, "brightness_sample"⟩
        ⟨"pi-1", "http://pi", 51, 0, "porch"⟩ (fun _ => none)
        [("peerA", ⟨LibP2PState.Connected, true, "topicA"⟩)]
        (Except.ok (some ⟨1700000000, 42⟩)) 1700000001 true false SelectBranch.tick =
      some SellerStepResult.stopped :=
  ((claim4_cancel_exits
      ⟨true, "/localsense/brightness/v1", "0.1.0", 5 * second, "brightness_sample"⟩
      ⟨"pi-1", "http://pi", 51, 0, "porch"⟩ (fun _ => none)
      [("peerA", ⟨LibP2PState.Connected, true, "topicA"⟩)]
      (Except.ok (some ⟨1700000000, 42⟩)) (Except.ok []) false 1700000001 1700000001
      false SelectBranch.tick).1 rfl).1

/-- C5 counterexample: the HTTP `/stream` loop copies the raw `ts` value
from the decoded metrics map unchanged, so a reading with `ts = 0`
produces an emitted envelope whose `ts` field is `0` even though the
tick's wall-clock time is positive — no substitution happens in the
single-sink instantiation. -/
theorem claim5_counterexample :
    (streamPayloadEntries ⟨"pi-1", "http://pi", 51, 0, "porch"⟩
        [("ts", Json.num 0), ("brightness", Json.num 42)] 1700000001).lookup "ts" =
      some (Json.num 0) ∧
    (0 : Int) < 1700000001 :=
  ⟨rfl, by decide⟩

/-- C5 (amended): in the multi-sink (peer) instantiation every envelope
carries a usable non-zero timestamp — whenever the reading's timestamp
truncates to ≤ 0 the wall clock is substituted, so the emitted `ts` is
positive for any positive `now`; the HTTP `/stream` instantiation
instead copies the raw `ts` (possibly zero, or `null` when missing)
into the envelope, and only its separate `time_iso` field is derived
from the wall clock. -/
theorem claim5_ts_invariant (idcfg : SellerConfig) (kind : String)
    (now : Int) (m : PiMetrics) :
    (0 < now →
      0 < normalizeTs m.ts now ∧
      (envelopeEntries idcfg kind now m).lookup "ts" =
        some (Json.num ((normalizeTs m.ts now : Int) : ℚ)) ∧
      buildSamplePayload idcfg kind now (some m) =
        Except.ok (marshalObj (envelopeEntries idcfg kind now m), normalizeTs m.ts now)) ∧
    (∀ (pmMap : Entries) (t : Int),
      (streamPayloadEntries idcfg pmMap t).lookup "ts" =
        some ((pmMap.lookup "ts").getD Json.null) ∧
      (streamPayloadEntries idcfg pmMap t).lookup "time_iso" =
        some (Json.str (rfc3339FromEpoch t))) := by
  constructor
  · intro h
    exact ⟨normalizeTs_pos m.ts now h, envelopeEntries_lookup_ts idcfg kind now m, rfl⟩
  · intro pmMap t
    exact ⟨rfl, rfl⟩

/-- C5 witness: with a zero reading timestamp and wall clock
`1700000001`, the peer envelope's epoch is positive. -/
theorem claim5_ts_invariant_witness :
    0 < normalizeTs (0 : ℚ) 1700000001 :=
  ((claim5_ts_invariant ⟨"pi-1", "http://pi", 51, 0, "porch"⟩ "brightness_sample"
      1700000001 ⟨0, 42⟩).1 (by decide)).1

/-- C6: failure fatality is asymmetric between the two loops.  In the
single-sink `/stream` loop an encoder failure terminates that stream's
loop (the step returns `stopped`), while a fetch failure merely skips
the tick; in the multi-sink loop a payload-build failure (nil metrics)
skips the tick with no writes, and no tick outcome — whatever the
per-sink write failures — ever stops the loop. -/
theorem claim6_fatality_asymmetry (cfg : NeuronSellerConfig) (idcfg : SellerConfig)
    (writeErr : PeerId → Option String) (now t : Int) (choice : SelectBranch) :
    (∀ pm : Entries,
      streamHandlerStep idcfg (Except.ok pm) true t false true choice =
        some StreamStepResult.stopped) ∧
    (∀ (e : String) (encodeFails : Bool),
      streamHandlerStep idcfg (Except.error e) encodeFails t false true choice =
        some (StreamStepResult.ticked none)) ∧
    (∀ m : BufferMap, m ≠ [] →
      handleSellerStreamStep cfg idcfg writeErr m (Except.ok none) now false true choice =
        some (SellerStepResult.ticked ⟨true, []⟩)) ∧
    (∀ (m : BufferMap) (fetchResult : Except String (Option PiMetrics)),
      handleSellerStreamStep cfg idcfg writeErr m fetchResult now false true choice ≠
        some SellerStepResult.stopped) := by
  refine ⟨fun pm => rfl, fun e encodeFails => rfl, ?_, ?_⟩
  · intro m hm
    have hlen : ¬ m.length = 0 := fun h => hm (List.length_eq_zero.mp h)
    show some (SellerStepResult.ticked (sellerTick cfg idcfg writeErr m (Except.ok none) now)) = _
    unfold sellerTick
    rw [if_neg hlen]
    rfl
  · intro m fetchResult h
    exact SellerStepResult.noConfusion (Option.some.inj h)

/-- C6 witness: a concrete encoder failure stops the single-sink loop,
while the same tick of the multi-sink loop with a nil-metrics build
failure continues. -/
theorem claim6_fatality_asymmetry_witness :
    streamHandlerStep ⟨"pi-1", "http://pi", 51, 0, "porch"⟩
        (Except.ok [("ts", Json.num 1700000000)]) true 1700000001 false true
        SelectBranch.tick = some StreamStepResult.stopped ∧
    handleSellerStreamStep
        ⟨true, "/localsense/brightness/v1", "0.1.0", 5 * second, "brightness_sample"⟩
        ⟨"pi-1", "http://pi", 51, 0, "porch"⟩ (fun _ => none)
        [("peerA", ⟨LibP2PState.Connected, true, "topicA"⟩)] (Except.ok none)
        1700000001 false true SelectBranch.tick =
      some (SellerStepResult.ticked ⟨true, []⟩) :=
  ⟨(claim6_fatality_asymmetry
      ⟨true, "/localsense/brightness/v1", "0.1.0", 5 * second, "brightness_sample"⟩
      ⟨"pi-1", "http://pi", 51, 0, "porch"⟩ (fun _ => none) 1700000001 1700000001
      SelectBranch.tick).1 [("ts", Json.num 1700000000)],
   (claim6_fatality_asymmetry
      ⟨true, "/localsense/brightness/v1", "0.1.0", 5 * second, "brightness_sample"⟩
      ⟨"pi-1", "http://pi", 51, 0, "porch"⟩ (fun _ => none) 1700000001 1700000001
      SelectBranch.tick).2.2.1
    [("peerA", ⟨LibP2PState.Connected, true, "topicA"⟩)] (by decide)⟩

/-- Recording an error never yields an error-free state. -/
theorem orElse_some_isNone (o : Option String) (m : String) :
    (o <|> some m).isNone = false := by
  cases o <;> rfl

/-- A key that folds to `ts` cannot also fold to `brightness`. -/
theorem eqFold_ts_not_brightness (k : String) (h : eqFold k "ts" = true) :
    eqFold k "brightness" = false := by
  unfold eqFold at h ⊢
  have hk : lowerStr k = lowerStr "ts" := beq_iff_eq.mp h
  rw [hk]
  decide

/-- The decoding fold ends error-free exactly when it started error-free
and every entry matching either field is a number or `null`. -/
theorem decodePiFields_err_isNone (kvs : Entries) :
    ∀ (t b : ℚ) (err : Option String),
      (decodePiFields kvs t b err).2.2.isNone =
        (err.isNone && specFieldOk "ts" kvs && specFieldOk "brightness" kvs) := by
  induction kvs with
  | nil =>
    intro t b err
    simp [decodePiFields, specFieldOk]
  | cons kv rest ih =>
    intro t b err
    obtain ⟨k, v⟩ := kv
    by_cases hts : eqFold k "ts" = true
    · have hbr := eqFold_ts_not_brightness k hts
      cases v <;>
        simp [decodePiFields, hts, hbr, specFieldOk, numCompatible, ih,
          orElse_some_isNone, Bool.and_assoc, Bool.and_left_comm]
    · by_cases hbr : eqFold k "brightness" = true
      · cases v <;>
          simp [decodePiFields, hts, hbr, specFieldOk, numCompatible, ih,
            orElse_some_isNone, Bool.and_assoc, Bool.and_left_comm]
      · simp [decodePiFields, hts, hbr, specFieldOk, numCompatible, ih,
          Bool.and_assoc, Bool.and_left_comm]

/-- Entries matching neither field leave `brightness` untouched. -/
theorem decodePiFields_brightness_pass (kvs : Entries) :
    ∀ (t b : ℚ) (err : Option String),
      (∀ kv ∈ kvs, eqFold kv.1 "brightness" = false) →
      (decodePiFields kvs t b err).2.1 = b := by
  induction kvs with
  | nil =>
    intro t b err _
    rfl
  | cons kv rest ih =>
    intro t b err h
    obtain ⟨k, v⟩ := kv
    have hk : eqFold k "brightness" = false := h (k, v) (List.mem_cons_self _ _)
    have hrest : ∀ kv ∈ rest, eqFold kv.1 "brightness" = false :=
      fun kv hm => h kv (List.mem_cons_of_mem _ hm)
    by_cases hts : eqFold k "ts" = true
    · cases v <;> simp [decodePiFields, hts, ih _ _ _ hrest]
    · simp [decodePiFields, hts, hk, ih _ _ _ hrest]

/-- Decoding a body succeeds exactly under the spec-side body shape
predicate. -/
theorem decodePiMetrics_isOk (j : Json) :
    (decodePiMetrics j).isOk = specDecodeOk j := by
  cases j with
  | null => rfl
  | bool b => rfl
  | num q => rfl
  | str s => rfl
  | arr xs => rfl
  | obj kvs =>
    have h := decodePiFields_err_isNone kvs 0 0 none
    unfold decodePiMetrics specDecodeOk
    dsimp only
    rcases hd : decodePiFields kvs 0 0 none with ⟨t, b, err⟩
    rw [hd] at h
    rcases err with _ | e
    · have h' : (specFieldOk "ts" kvs && specFieldOk "brightness" kvs) = true := h.symm
      rw [h']
      rfl
    · have h' : (specFieldOk "ts" kvs && specFieldOk "brightness" kvs) = false := h.symm
      rw [h']
      rfl

/-- C7 counterexample: the body `\x7b"ts": 5\x7d` differs from the
expected `\x7b ts, brightness \x7d` shape (the `brightness` field is
missing) yet decodes successfully with `brightness = 0`; and a
well-shaped body behind the success status 204 still fails the fetch,
because the code tests `!= 200`, not "non-success". -/
theorem claim7_counterexample :
    decodePiMetrics (Json.obj [("ts", Json.num 5)]) = Except.ok ⟨5, 0⟩ ∧
    fetchJSONPi (HttpResult.response 204
        (some (Json.obj [("ts", Json.num 5), ("brightness", Json.num 1)]))) =
      Except.error "status 204" :=
  ⟨rfl, rfl⟩

/-- C7 (amended): the fetch fails exactly when the endpoint is
unreachable, the status is not 200 (any other status, success-class or
not), the body is not valid JSON, or the body fails Go's decoding rules
for the `piMetrics` struct — it is neither `null` nor an object, or it
is an object some of whose entries case-insensitively match `ts` or
`brightness` with a non-numeric, non-null value.  Keys matching neither
field are ignored, matching entries are decoded in document order with
the last numeric value winning, and a field with no matching entry
decodes as 0.  On a 200 response with a parsed body the fetch returns
exactly the decoder's result. -/
theorem claim7_fetch_conditions (r : HttpResult) :
    (fetchJSONPi r).isOk = specFetchOk r ∧
    (∀ j : Json, fetchJSONPi (HttpResult.response 200 (some j)) = decodePiMetrics j) ∧
    (∀ kvs : Entries, (∀ kv ∈ kvs, eqFold kv.1 "brightness" = false) →
      ∀ m : PiMetrics, decodePiMetrics (Json.obj kvs) = Except.ok m →
        m.brightness = 0) := by
  refine ⟨?_, fun j => rfl, ?_⟩
  · cases r with
    | unreachable e => rfl
    | response status body =>
      by_cases hs : status = 200
      · subst hs
        rcases body with _ | j
        · rfl
        · show (decodePiMetrics j).isOk = _
          rw [decodePiMetrics_isOk]
          simp [specFetchOk]
      · unfold fetchJSONPi specFetchOk
        dsimp only
        rw [if_pos hs, decide_eq_false hs]
        rfl
  · intro kvs hnb m hm
    have hb := decodePiFields_brightness_pass kvs 0 0 none hnb
    unfold decodePiMetrics at hm
    dsimp only at hm
    rcases hd : decodePiFields kvs 0 0 none with ⟨t, b, err⟩
    rw [hd] at hm hb
    rcases err with _ | e
    · cases Except.ok.inj hm
      exact hb
    · exact Except.noConfusion hm

/-- C7 witness: the case-variant key `"TS"` matches the `ts` field (so
the body decodes to `ts = 7`), no entry matches `brightness`, and the
decoded reading has `brightness = 0`. -/
theorem claim7_fetch_conditions_witness :
    decodePiMetrics (Json.obj [("TS", Json.num 7)]) = Except.ok ⟨7, 0⟩ ∧
    (⟨7, 0⟩ : PiMetrics).brightness = 0 :=
  ⟨rfl,
   (claim7_fetch_conditions (HttpResult.response 200 none)).2.2
     [("TS", Json.num 7)] (by decide) ⟨7, 0⟩ rfl⟩

/-- Field-wise characterization of `ensureDefaults`: each field is
replaced by its fallback exactly when it is unset/invalid, independently
of the other fields. -/
theorem ensureDefaults_fields (c : NeuronSellerConfig) :
    c.ensureDefaults.enabled = c.enabled ∧
    c.ensureDefaults.protocol =
      (if c.protocol = "" then "/localsense/brightness/v1" else c.protocol) ∧
    c.ensureDefaults.version = (if c.version = "" then "0.1.0" else c.version) ∧
    c.ensureDefaults.streamInterval =
      (if c.streamInterval ≤ 0 then 5 * second else c.streamInterval) ∧
    c.ensureDefaults.sampleKind =
      (if c.sampleKind = "" then "brightness_sample" else c.sampleKind) := by
  unfold NeuronSellerConfig.ensureDefaults
  by_cases h1 : c.streamInterval ≤ 0 <;> by_cases h2 : c.protocol = "" <;>
    by_cases h3 : c.version = "" <;> by_cases h4 : c.sampleKind = "" <;>
      simp [h1, h2, h3, h4]

/-- C8: every loaded broadcast configuration has defaults applied to
each unset or invalid field, so the result always has a positive tick
interval and non-empty identifier strings (interval ≤ 0 becomes 5
seconds; empty protocol id, version, sample-kind become their fixed
fallbacks), valid fields pass through unchanged, and
`loadNeuronSellerConfig` is exactly `ensureDefaults` applied to the raw
environment-derived config. -/
theorem claim8_config_defaults (c : NeuronSellerConfig) :
    0 < c.ensureDefaults.streamInterval ∧
    c.ensureDefaults.protocol ≠ "" ∧
    c.ensureDefaults.version ≠ "" ∧
    c.ensureDefaults.sampleKind ≠ "" ∧
    c.ensureDefaults.enabled = c.enabled ∧
    (c.streamInterval ≤ 0 → c.ensureDefaults.streamInterval = 5 * second) ∧
    (0 < c.streamInterval → c.ensureDefaults.streamInterval = c.streamInterval) ∧
    (c.protocol = "" → c.ensureDefaults.protocol = "/localsense/brightness/v1") ∧
    (c.protocol ≠ "" → c.ensureDefaults.protocol = c.protocol) ∧
    (c.version = "" → c.ensureDefaults.version = "0.1.0") ∧
    (c.version ≠ "" → c.ensureDefaults.version = c.version) ∧
    (c.sampleKind = "" → c.ensureDefaults.sampleKind = "brightness_sample") ∧
    (c.sampleKind ≠ "" → c.ensureDefaults.sampleKind = c.sampleKind) ∧
    (∀ env : Env, loadNeuronSellerConfig env = (rawNeuronSellerConfig env).ensureDefaults) := by
  obtain ⟨he, hp, hv, hs, hk⟩ := ensureDefaults_fields c
  refine ⟨?_, ?_, ?_, ?_, he, ?_, ?_, ?_, ?_, ?_, ?_, ?_, ?_, fun env => rfl⟩
  · rw [hs]
    split_ifs with h
    · decide
    · omega
  · rw [hp]
    split_ifs with h
    · decide
    · exact h
  · rw [hv]
    split_ifs with h
    · decide
    · exact h
  · rw [hk]
    split_ifs with h
    · decide
    · exact h
  · intro h
    rw [hs, if_pos h]
  · intro h
    rw [hs, if_neg (by omega)]
  · intro h
    rw [hp, if_pos h]
  · intro h
    rw [hp, if_neg h]
  · intro h
    rw [hv, if_pos h]
  · intro h
    rw [hv, if_neg h]
  · intro h
    rw [hk, if_pos h]
  · intro h
    rw [hk, if_neg h]

/-- C8 witness: a config with a non-positive interval and empty protocol
gets the 5-second and protocol-id fallbacks, keeps its explicit version. -/
theorem claim8_config_defaults_witness :
    (NeuronSellerConfig.ensureDefaults ⟨true, "", "9.9.9", -3, ""⟩).streamInterval =
        5 * second ∧
    (NeuronSellerConfig.ensureDefaults ⟨true, "", "9.9.9", -3, ""⟩).protocol =
        "/localsense/brightness/v1" ∧
    (NeuronSellerConfig.ensureDefaults ⟨true, "", "9.9.9", -3, ""⟩).version = "9.9.9" :=
  ⟨(claim8_config_defaults ⟨true, "", "9.9.9", -3, ""⟩).2.2.2.2.2.1 (by decide),
   (claim8_config_defaults ⟨true, "", "9.9.9", -3, ""⟩).2.2.2.2.2.2.2.1 rfl,
   (claim8_config_defaults ⟨true, "", "9.9.9", -3, ""⟩).2.2.2.2.2.2.2.2.2.2.1 (by decide)⟩

/-- C10: the single-sink HTTP `/stream` loop always ticks at a fixed
5-second interval: its ticker is created with the literal
`5 * time.Second` for every environment, even one whose
`NEURON_STREAM_INTERVAL_SECONDS` configures a different interval for the
multi-sink loop (shown concretely for a 7-second configuration). -/
theorem claim10_fixed_stream_interval (env : Env) :
    streamHandlerTickInterval env = 5 * second ∧
    streamHandlerTickInterval
        (fun k => if k = "NEURON_STREAM_INTERVAL_SECONDS" then "7" else "") = 5 * second ∧
    (loadNeuronSellerConfig
        (fun k => if k = "NEURON_STREAM_INTERVAL_SECONDS" then "7" else "")).streamInterval =
      7 * second := by
  refine ⟨rfl, rfl, ?_⟩
  decide

end LocalSense
